import Mathlib

/-!
Verification of the recur-scan feature engine (`src/recur_scan/features.py`).

Modelling conventions:
* Python `float` amounts and feature values are modelled as exact fractions
  (`PyNum`, a numerator/denominator pair with positive denominator), with
  numeric comparison by cross-multiplication.  The decimal literals used by
  the program (9.99, 0.7, ...) are written as exact fractions.
* `datetime.date` values are modelled as `PyDate` (year/month/day), with
  `PyDate.ord` the proleptic-Gregorian ordinal used for date differences;
  `datetime.datetime.strptime(s, "%Y-%m-%d")` is `strptimeYMD`, which accepts
  a 4-digit year and 1- or 2-digit month/day, validating real calendar dates,
  and returns `none` where Python raises `ValueError`.
* Python exceptions (`ValueError`, `ZeroDivisionError`, `IndexError`) are
  modelled uniformly by `Option`: a function returns `none` where the Python
  code raises.
* Python `sorted` is stable; it is modelled by `List.insertionSort` (also
  stable, since `orderedInsert` with a `≤`-style relation inserts an earlier
  element before later equal ones when folding from the right).
* Python dicts are association lists with unique keys; `{**a, **b}` merging
  is `dictMerge`, where inserting an existing key overwrites its value in
  place and a new key is appended.
-/

namespace RecurScan

/-- Exact-fraction model of a Python float. The denominator is kept positive
by every operation below. Structural equality is only used where the
development controls the representation; the program's own `==`, `<`, `<=`
comparisons go through the cross-multiplication functions `PyNum.eq`,
`PyNum.lt`, `PyNum.le`. -/
structure PyNum where
  num : ℤ
  den : ℤ
deriving DecidableEq, Repr

namespace PyNum

def ofInt (n : ℤ) : PyNum := ⟨n, 1⟩

def ofNat (n : ℕ) : PyNum := ⟨(n : ℤ), 1⟩

def add (a b : PyNum) : PyNum := ⟨a.num * b.den + b.num * a.den, a.den * b.den⟩

def sub (a b : PyNum) : PyNum := ⟨a.num * b.den - b.num * a.den, a.den * b.den⟩

def mul (a b : PyNum) : PyNum := ⟨a.num * b.num, a.den * b.den⟩

/-- Division, assuming the divisor is nonzero (callers guard it). -/
def div (a b : PyNum) : PyNum :=
  if b.num < 0 then ⟨-(a.num * b.den), -(a.den * b.num)⟩ else ⟨a.num * b.den, a.den * b.num⟩

def eq (a b : PyNum) : Bool := a.num * b.den == b.num * a.den

def lt (a b : PyNum) : Bool := a.num * b.den < b.num * a.den

def le (a b : PyNum) : Bool := a.num * b.den ≤ b.num * a.den

def abs (a : PyNum) : PyNum := ⟨|a.num|, a.den⟩

def sq (a : PyNum) : PyNum := mul a a

/-- Floor of a fraction with positive denominator, as used by `//` and by
Python's float-to-int floor conversions. -/
def floor (a : PyNum) : ℤ := Int.fdiv a.num a.den

/-- Python `int(x)`: truncation toward zero. -/
def trunc (a : PyNum) : ℤ := if 0 ≤ a.num then Int.fdiv a.num a.den else -(Int.fdiv (-a.num) a.den)

/-- Python `round(x)` on a float: round-half-to-even. -/
def round (a : PyNum) : ℤ :=
  let f := Int.fdiv a.num a.den
  let twiceRem := 2 * (a.num - f * a.den)
  if twiceRem < a.den then f
  else if a.den < twiceRem then f + 1
  else if Int.emod f 2 = 0 then f else f + 1

/-- Python float `%` with a positive modulus: `a - b * floor(a / b)`. -/
def pymod (a b : PyNum) : PyNum :=
  sub a (mul b (ofInt (Int.fdiv (a.num * b.den) (a.den * b.num))))

/-- Python `a // b` followed by `int(...)` for positive `b`. -/
def floordiv (a b : PyNum) : ℤ := Int.fdiv (a.num * b.den) (a.den * b.num)

end PyNum

/-- Fuelled Newton iteration for integer square roots (`Nat.sqrt` itself is
not kernel-reducible). Exact on perfect squares, which are the only values
the concrete theorems below evaluate it on. -/
def natSqrtNewton : ℕ → ℕ → ℕ → ℕ
  | 0, _, x => x
  | fuel + 1, n, x =>
    let y := (x + n / x) / 2
    if y < x then natSqrtNewton fuel n y else x

def natSqrt (n : ℕ) : ℕ := if n = 0 then 0 else natSqrtNewton 100 n n

/-- Python `v ** 0.5` on a nonnegative fraction: `√(n/d) = √(n·d)/d`.
Exact on perfect squares (the only evaluated cases); approximate otherwise,
faithful to the fact that the float result is only meaningful there. -/
def pySqrt (a : PyNum) : PyNum := ⟨(natSqrt (a.num * a.den).toNat : ℤ), a.den⟩

/-- Division that models Python's `ZeroDivisionError` as `none`. -/
def pydivO (a b : PyNum) : Option PyNum := if b.num = 0 then none else some (PyNum.div a b)

/-- A numeric feature value: Python stores `int`, `float` and `bool` values
in the returned dict, and the embedding keeps the distinction. -/
inductive FVal where
  | int : ℤ → FVal
  | float : PyNum → FVal
  | bool : Bool → FVal
deriving DecidableEq, Repr

/-- Transaction record. Modelled from the spec: the `Transaction` class lives
in `recur_scan.transactions`, outside the given source; the spec lists the
fields `id` (opaque, unused), `user_id`, `name`, `amount`, `date`. -/
structure Transaction where
  id : String
  user_id : String
  name : String
  amount : PyNum
  date : String
deriving DecidableEq, Repr

/- ### Date parsing -/

def isLeapYear (y : ℕ) : Bool := y % 4 == 0 && (y % 100 != 0 || y % 400 == 0)

def daysInMonth (y m : ℕ) : ℕ :=
  if m = 2 then (if isLeapYear y then 29 else 28)
  else if m = 4 ∨ m = 6 ∨ m = 9 ∨ m = 11 then 30
  else 31

def daysBeforeMonth (y m : ℕ) : ℕ :=
  ((List.range (m - 1)).map (fun i => daysInMonth y (i + 1))).foldl (· + ·) 0

/-- Proleptic-Gregorian ordinal of the date `y-m-d` (as Python's
`date.toordinal`): the number of days since 0001-01-00. -/
def ordOfYMD (y m d : ℕ) : ℕ :=
  365 * (y - 1) + (y - 1) / 4 - (y - 1) / 100 + (y - 1) / 400 + daysBeforeMonth y m + d

structure PyDate where
  year : ℕ
  month : ℕ
  day : ℕ
deriving DecidableEq, Repr

def PyDate.ord (a : PyDate) : ℤ := (ordOfYMD a.year a.month a.day : ℤ)

/-- Structural model of `str.split(sep)` for a one-character separator. -/
def splitChars (sep : Char) : List Char → List (List Char)
  | [] => [[]]
  | c :: rest =>
    let r := splitChars sep rest
    if c = sep then [] :: r
    else
      match r with
      | [] => [[c]]
      | h :: t => (c :: h) :: t

def allDigits (l : List Char) : Bool := !l.isEmpty && l.all Char.isDigit

def digitsToNat (l : List Char) : ℕ := l.foldl (fun a c => 10 * a + (c.toNat - 48)) 0

/-- `datetime.datetime.strptime(s, "%Y-%m-%d").date()`: exactly three
dash-separated fields, a 4-digit year, 1- or 2-digit month in 1..12, 1- or
2-digit day valid for the month, year at least 1; `none` models the
`ValueError` Python raises otherwise. -/
def strptimeYMD (s : String) : Option PyDate :=
  match splitChars '-' s.data with
  | [ys, ms, ds] =>
    if ys.length = 4 ∧ allDigits ys ∧ ms.length ≤ 2 ∧ allDigits ms ∧ ds.length ≤ 2 ∧ allDigits ds then
      let y := digitsToNat ys
      let m := digitsToNat ms
      let d := digitsToNat ds
      if 1 ≤ y ∧ 1 ≤ m ∧ m ≤ 12 ∧ 1 ≤ d ∧ d ≤ daysInMonth y m then some ⟨y, m, d⟩ else none
    else none
  | _ => none

/-- The date parser used by the periodicity matcher (`_parse_date` in the
source). The `lru_cache` wrapper is modelled separately below as
`parse_date_cached`; this is the underlying pure function. -/
def _parse_date (date_str : String) : Option PyDate := strptimeYMD date_str

/- ### Word-boundary regex search -/

def isWordChar (c : Char) : Bool := c.isAlphanum || c == '_'

def matchAt (hay needle : List Char) (i : ℕ) : Bool :=
  decide ((hay.drop i).take needle.length = needle)

def boundaryOk (hay : List Char) (i len : ℕ) : Bool :=
  (decide (i = 0) || !isWordChar (hay.getD (i - 1) ' ')) &&
  (decide (i + len = hay.length) || !isWordChar (hay.getD (i + len) ' '))

/-- `re.search(r"\b(alt1|alt2|...)\b", s, re.IGNORECASE)` as a Boolean: some
alternative occurs at some position with word boundaries on both sides (all
alternatives used by the program begin and end with word characters). -/
def reSearchWord (alts : List String) (s : String) : Bool :=
  let hay := s.data.map Char.toLower
  (List.range (hay.length + 1)).any fun i =>
    alts.any fun a => matchAt hay a.data i && boundaryOk hay i a.data.length

/- ### Dicts -/

def pyLower (s : String) : String := String.mk (s.data.map Char.toLower)

abbrev Dict := List (String × FVal)

/-- Python dict insertion: overwrite the value of an existing key in place,
or append a new key. (Keys are unique in every dict the development builds,
so replacing the first occurrence is exact.) -/
def dictInsert : Dict → String × FVal → Dict
  | [], kv => [kv]
  | p :: d, kv => if p.1 = kv.1 then (kv.1, kv.2) :: d else p :: dictInsert d kv

/-- `{**d, **e}`: fold `e`'s entries into `d` in order. -/
def dictMerge (d e : Dict) : Dict := e.foldl dictInsert d

def dkeys (d : Dict) : List String := d.map Prod.fst

/- ### Feature functions (in source order) -/

def get_is_always_recurring (transaction : Transaction) : Bool :=
  ["google storage", "netflix", "hulu", "spotify"].contains (pyLower transaction.name)

def get_is_insurance (transaction : Transaction) : Bool :=
  reSearchWord ["insurance", "insur", "insuranc"] transaction.name

def get_is_utility (transaction : Transaction) : Bool :=
  reSearchWord ["utility", "utilit", "energy"] transaction.name

def get_is_phone (transaction : Transaction) : Bool :=
  reSearchWord ["at&t", "t-mobile", "verizon"] transaction.name

/-- Acceptance predicate of the periodicity matcher's loop body: skip a
candidate whose distance is below `n_days_apart - n_days_off`, otherwise
accept when the distance is within `n_days_off` of a multiple of
`n_days_apart`. -/
def daysApartHit (transaction_date t_date : ℤ) (n_days_apart n_days_off : ℤ) : Bool :=
  let days_diff := |t_date - transaction_date|
  if days_diff < n_days_apart - n_days_off then false
  else
    let remainder := Int.emod days_diff n_days_apart
    decide (remainder ≤ n_days_off) || decide (remainder ≥ n_days_apart - n_days_off)

/-- Option-valued map over a list, evaluating left to right and stopping at
the first failure, as a Python list comprehension does. -/
def mapOpt {a b : Type} (f : a -> Option b) : List a -> Option (List b)
  | [] => some []
  | x :: l => do
    let y <- f x
    let ys <- mapOpt f l
    pure (y :: ys)

def get_n_transactions_days_apart (transaction : Transaction)
    (all_transactions : List Transaction) (n_days_apart n_days_off : ℤ) : Option ℕ := do
  let transaction_date ← _parse_date transaction.date
  let parsed ← mapOpt (fun t => _parse_date t.date) all_transactions
  pure (parsed.countP fun d => daysApartHit transaction_date.ord d.ord n_days_apart n_days_off)

def get_pct_transactions_days_apart (transaction : Transaction)
    (all_transactions : List Transaction) (n_days_apart n_days_off : ℤ) : Option PyNum := do
  let n_txs ← get_n_transactions_days_apart transaction all_transactions n_days_apart n_days_off
  pydivO (PyNum.ofNat n_txs) (PyNum.ofNat all_transactions.length)

/-- `int(date.split("-")[2])`: `none` models the `IndexError`/`ValueError`
raised on strings without three dash-separated numeric fields. -/
def _get_day (date : String) : Option ℤ :=
  match (splitChars '-' date.data).drop 2 with
  | part :: _ => if allDigits part then some (digitsToNat part : ℤ) else none
  | [] => none

def get_n_transactions_same_day (transaction : Transaction)
    (all_transactions : List Transaction) (n_days_off : ℤ) : Option ℕ := do
  let day ← _get_day transaction.date
  let days ← mapOpt (fun t => _get_day t.date) all_transactions
  pure (days.countP fun d => decide (|d - day| ≤ n_days_off))

def get_pct_transactions_same_day (transaction : Transaction)
    (all_transactions : List Transaction) (n_days_off : ℤ) : Option PyNum := do
  let n ← get_n_transactions_same_day transaction all_transactions n_days_off
  pydivO (PyNum.ofNat n) (PyNum.ofNat all_transactions.length)

def get_ends_in_99 (transaction : Transaction) : Bool :=
  PyNum.eq (PyNum.pymod (PyNum.mul transaction.amount (PyNum.ofInt 100)) (PyNum.ofInt 100))
    (PyNum.ofInt 99)

def get_n_transactions_same_amount (transaction : Transaction)
    (all_transactions : List Transaction) : ℕ :=
  (all_transactions.filter fun t => PyNum.eq t.amount transaction.amount).length

def get_percent_transactions_same_amount (transaction : Transaction)
    (all_transactions : List Transaction) : PyNum :=
  if all_transactions.isEmpty then PyNum.ofInt 0
  else
    let n_same_amount := (all_transactions.filter fun t => PyNum.eq t.amount transaction.amount).length
    PyNum.div (PyNum.ofNat n_same_amount) (PyNum.ofNat all_transactions.length)

/-- Consecutive gaps `dates[i+1] - dates[i]`. -/
def consecDiffs (l : List ℤ) : List ℤ := List.zipWith (fun a b => b - a) l l.tail

def listMaxZ (l : List ℤ) : ℤ := l.foldl max (l.headD 0)

def listMinZ (l : List ℤ) : ℤ := l.foldl min (l.headD 0)

def listSumZ (l : List ℤ) : ℤ := l.foldl (· + ·) 0

def pySumPN (l : List PyNum) : PyNum := l.foldl PyNum.add (PyNum.ofInt 0)

/-- The sorted per-vendor parsed-date list (sorting the `datetime` objects
equals sorting their ordinals, since the ordinal is monotone in the date). -/
def sortedVendorDates (transaction : Transaction) (all_transactions : List Transaction) :
    Option (List ℤ) :=
  (mapOpt (fun t => _parse_date t.date)
      (all_transactions.filter fun t => t.name == transaction.name)).map
    fun parsed => List.insertionSort (· ≤ ·) (parsed.map PyDate.ord)

/-- The per-vendor inter-arrival gap list shared by `get_frequency_features`
and `get_temporal_consistency_features`. -/
def vendorGaps (transaction : Transaction) (all_transactions : List Transaction) :
    Option (List ℤ) :=
  (sortedVendorDates transaction all_transactions).map consecDiffs

def get_frequency_features (transaction : Transaction)
    (all_transactions : List Transaction) : Option Dict :=
  let merchant_transactions := all_transactions.filter fun t => t.name == transaction.name
  if merchant_transactions.length < 2 then
    some [("frequency", .float (PyNum.ofInt 0)), ("date_variability", .float (PyNum.ofInt 0)),
      ("median_frequency", .float (PyNum.ofInt 0)), ("std_frequency", .float (PyNum.ofInt 0))]
  else
    (vendorGaps transaction all_transactions).map fun date_diffs =>
      let avg_frequency := PyNum.div (PyNum.ofInt (listSumZ date_diffs)) (PyNum.ofNat date_diffs.length)
      let median_frequency := (List.insertionSort (· ≤ ·) date_diffs).getD (date_diffs.length / 2) 0
      let std_frequency := pySqrt (PyNum.div
        (pySumPN (date_diffs.map fun x => PyNum.sq (PyNum.sub (PyNum.ofInt x) avg_frequency)))
        (PyNum.ofNat date_diffs.length))
      let date_variability := listMaxZ date_diffs - listMinZ date_diffs
      [("frequency", .float avg_frequency), ("date_variability", .int date_variability),
        ("median_frequency", .int median_frequency), ("std_frequency", .float std_frequency)]

def is_valid_recurring_transaction (transaction : Transaction) : Bool :=
  let vendor_name := pyLower transaction.name
  let amount := transaction.amount
  if vendor_name == "apple" then
    PyNum.lt (PyNum.abs (PyNum.add (PyNum.sub amount (PyNum.ofInt (PyNum.round amount)))
      ⟨1, 100⟩)) ⟨1, 1000⟩
  else if vendor_name == "brigit" then
    PyNum.eq amount ⟨999, 100⟩ || PyNum.eq amount ⟨1499, 100⟩
  else if vendor_name == "cleo ai" then
    PyNum.eq amount ⟨399, 100⟩ || PyNum.eq amount ⟨699, 100⟩
  else if vendor_name == "credit genie" then
    PyNum.eq amount ⟨349, 100⟩ || PyNum.eq amount ⟨499, 100⟩
  else if ["netflix", "spotify", "microsoft", "amazon prime", "at&t", "verizon", "spectrum",
      "geico", "hugo insurance"].contains vendor_name then
    true
  else
    true

def get_amount_features (transaction : Transaction) : Dict :=
  [("is_amount_rounded",
      .int (if PyNum.eq transaction.amount (PyNum.ofInt (PyNum.round transaction.amount)) then 1 else 0)),
    ("amount_category", .int (PyNum.floordiv transaction.amount (PyNum.ofInt 10)))]

def get_vendor_features (transaction : Transaction) (all_transactions : List Transaction) : Dict :=
  let vendor_transactions := all_transactions.filter fun t => t.name == transaction.name
  let avg_amount :=
    if vendor_transactions.isEmpty then PyNum.ofInt 0
    else PyNum.div (pySumPN (vendor_transactions.map Transaction.amount))
      (PyNum.ofNat vendor_transactions.length)
  [("n_transactions_with_vendor", .int (vendor_transactions.length : ℤ)),
    ("avg_amount_for_vendor", .float avg_amount)]

def get_time_features (transaction : Transaction) (all_transactions : List Transaction) :
    Option Dict := do
  let date_obj ← _parse_date transaction.date
  let merchant_transactions := all_transactions.filter fun t => t.name == transaction.name
  let parsed ← mapOpt (fun t => _parse_date t.date) merchant_transactions
  let dates := List.insertionSort (· ≤ ·) (parsed.map PyDate.ord)
  let idx ← dates.findIdx? fun d => d == date_obj.ord
  let days_until_next : ℤ := if idx < dates.length - 1 then dates.getD (idx + 1) 0 - date_obj.ord else 0
  pure [("month", .int (date_obj.month : ℤ)), ("days_until_next_transaction", .int days_until_next)]

def get_user_recurrence_rate (transaction : Transaction)
    (all_transactions : List Transaction) : Dict :=
  let user_transactions := all_transactions.filter fun t => t.user_id == transaction.user_id
  if user_transactions.length < 2 then [("user_recurrence_rate", .float (PyNum.ofInt 0))]
  else
    let recurring_count := (user_transactions.filter is_valid_recurring_transaction).length
    [("user_recurrence_rate",
        .float (PyNum.div (PyNum.ofNat recurring_count) (PyNum.ofNat user_transactions.length)))]

def get_user_specific_features (transaction : Transaction)
    (all_transactions : List Transaction) : Dict :=
  let user_transactions := all_transactions.filter fun t => t.user_id == transaction.user_id
  if user_transactions.length < 2 then
    [("user_transaction_count", .float (PyNum.ofInt 0)),
      ("user_recurring_transaction_count", .float (PyNum.ofInt 0)),
      ("user_recurring_transaction_rate", .float (PyNum.ofInt 0))]
  else
    let recurring_count := (user_transactions.filter is_valid_recurring_transaction).length
    [("user_transaction_count", .int (user_transactions.length : ℤ)),
      ("user_recurring_transaction_count", .int (recurring_count : ℤ)),
      ("user_recurring_transaction_rate",
        .float (PyNum.div (PyNum.ofNat recurring_count) (PyNum.ofNat user_transactions.length)))]

/-- First-occurrence deduplication: the iteration order of a Python `set`
comprehension is irrelevant because only the cardinality is used, and
`Counter` keys keep first-occurrence order. -/
def dedupFirst {α : Type} [DecidableEq α] (l : List α) : List α :=
  l.foldl (fun acc x => if x ∈ acc then acc else acc ++ [x]) []

def get_user_recurring_vendor_count (transaction : Transaction)
    (all_transactions : List Transaction) : Dict :=
  let user_transactions := all_transactions.filter fun t => t.user_id == transaction.user_id
  let recurring_vendors := dedupFirst ((user_transactions.filter is_valid_recurring_transaction).map Transaction.name)
  [("user_recurring_vendor_count", .int (recurring_vendors.length : ℤ))]

def get_user_transaction_frequency (transaction : Transaction)
    (all_transactions : List Transaction) : Option Dict :=
  let user_transactions := all_transactions.filter fun t => t.user_id == transaction.user_id
  if user_transactions.length < 2 then some [("user_transaction_frequency", .float (PyNum.ofInt 0))]
  else do
    let user_transactions_sorted := List.insertionSort (fun a b : Transaction => a.date ≤ b.date) user_transactions
    let dates ← mapOpt (fun t => _parse_date t.date) user_transactions_sorted
    let date_diffs := consecDiffs (dates.map PyDate.ord)
    pure [("user_transaction_frequency",
      .float (PyNum.div (PyNum.ofInt (listSumZ date_diffs)) (PyNum.ofNat date_diffs.length)))]

def get_vendor_amount_std (transaction : Transaction)
    (all_transactions : List Transaction) : Dict :=
  let vendor_transactions := all_transactions.filter fun t => t.name == transaction.name
  if vendor_transactions.length < 2 then [("vendor_amount_std", .float (PyNum.ofInt 0))]
  else
    let amounts := vendor_transactions.map Transaction.amount
    let mean_amount := PyNum.div (pySumPN amounts) (PyNum.ofNat amounts.length)
    let std_amount := pySqrt (PyNum.div
      (pySumPN (amounts.map fun x => PyNum.sq (PyNum.sub x mean_amount))) (PyNum.ofNat amounts.length))
    [("vendor_amount_std", .float std_amount)]

def get_vendor_recurring_user_count (transaction : Transaction)
    (all_transactions : List Transaction) : Dict :=
  let vendor_transactions := all_transactions.filter fun t => t.name == transaction.name
  let recurring_users := dedupFirst ((vendor_transactions.filter is_valid_recurring_transaction).map Transaction.user_id)
  [("vendor_recurring_user_count", .int (recurring_users.length : ℤ))]

def get_vendor_transaction_frequency (transaction : Transaction)
    (all_transactions : List Transaction) : Option Dict :=
  let vendor_transactions := all_transactions.filter fun t => t.name == transaction.name
  if vendor_transactions.length < 2 then some [("vendor_transaction_frequency", .float (PyNum.ofInt 0))]
  else do
    let vendor_transactions_sorted := List.insertionSort (fun a b : Transaction => a.date ≤ b.date) vendor_transactions
    let dates ← mapOpt (fun t => _parse_date t.date) vendor_transactions_sorted
    let date_diffs := consecDiffs (dates.map PyDate.ord)
    pure [("vendor_transaction_frequency",
      .float (PyNum.div (PyNum.ofInt (listSumZ date_diffs)) (PyNum.ofNat date_diffs.length)))]

def get_user_vendor_transaction_count (transaction : Transaction)
    (all_transactions : List Transaction) : Dict :=
  let user_vendor_transactions := all_transactions.filter fun t =>
    t.user_id == transaction.user_id && t.name == transaction.name
  [("user_vendor_transaction_count", .int (user_vendor_transactions.length : ℤ))]

def get_user_vendor_recurrence_rate (transaction : Transaction)
    (all_transactions : List Transaction) : Dict :=
  let user_vendor_transactions := all_transactions.filter fun t =>
    t.user_id == transaction.user_id && t.name == transaction.name
  if user_vendor_transactions.length < 1 then [("user_vendor_recurrence_rate", .float (PyNum.ofInt 0))]
  else
    let recurring_count := (user_vendor_transactions.filter is_valid_recurring_transaction).length
    [("user_vendor_recurrence_rate",
        .float (PyNum.div (PyNum.ofNat recurring_count) (PyNum.ofNat user_vendor_transactions.length)))]

def get_user_vendor_interaction_count (transaction : Transaction)
    (all_transactions : List Transaction) : Dict :=
  let user_vendor_transactions := all_transactions.filter fun t =>
    t.user_id == transaction.user_id && t.name == transaction.name
  [("user_vendor_interaction_count", .int (user_vendor_transactions.length : ℤ))]

def get_amount_category (transaction : Transaction) : Dict :=
  let amount := transaction.amount
  if PyNum.lt amount (PyNum.ofInt 10) then [("amount_category", .int 0)]
  else if PyNum.le (PyNum.ofInt 10) amount && PyNum.lt amount (PyNum.ofInt 20) then
    [("amount_category", .int 1)]
  else if PyNum.le (PyNum.ofInt 20) amount && PyNum.lt amount (PyNum.ofInt 50) then
    [("amount_category", .int 2)]
  else [("amount_category", .int 3)]

def countOccPN (l : List PyNum) (a : PyNum) : ℕ := l.countP fun x => PyNum.eq x a

/-- `Counter(l).most_common(n)` keys: distinct values in first-occurrence
order, stably sorted by descending multiplicity, truncated to `n`. -/
def mostCommonKeys (l : List PyNum) (n : ℕ) : List PyNum :=
  (List.insertionSort (fun a b => countOccPN l b ≤ countOccPN l a) (dedupFirst l)).take n

def get_amount_pattern_features (transaction : Transaction)
    (all_transactions : List Transaction) : Dict :=
  let amount := transaction.amount
  let vendor_transactions := all_transactions.filter fun t => t.name == transaction.name
  let vendor_amounts := vendor_transactions.map Transaction.amount
  let is_common_recurring_amount :=
    ([(⟨599, 100⟩ : PyNum), ⟨999, 100⟩, ⟨1499, 100⟩, ⟨1999, 100⟩, ⟨2999, 100⟩, ⟨3999, 100⟩,
        ⟨4999, 100⟩, ⟨9999, 100⟩].any fun c => PyNum.eq amount c) ||
      PyNum.le ⟨98, 100⟩ (PyNum.sub amount (PyNum.ofInt (PyNum.trunc amount)))
  let is_common_for_vendor :=
    if !vendor_amounts.isEmpty then
      (mostCommonKeys vendor_amounts 3).any fun c => PyNum.eq amount c
    else false
  [("is_common_recurring_amount", .int (if is_common_recurring_amount then 1 else 0)),
    ("is_common_for_vendor", .int (if is_common_for_vendor then 1 else 0)),
    ("amount_decimal_part", .float (PyNum.sub amount (PyNum.ofInt (PyNum.trunc amount))))]

def get_temporal_consistency_features (transaction : Transaction)
    (all_transactions : List Transaction) : Option Dict :=
  let vendor_transactions := all_transactions.filter fun t => t.name == transaction.name
  if vendor_transactions.length < 3 then
    some [("temporal_consistency_score", .float (PyNum.ofInt 0)),
      ("is_monthly_consistent", .int 0), ("is_weekly_consistent", .int 0)]
  else
    (vendorGaps transaction all_transactions).map fun date_diffs =>
      let monthly_diffs := date_diffs.filter fun diff => decide (28 ≤ diff ∧ diff ≤ 31)
      let monthly_consistency :=
        if !date_diffs.isEmpty then PyNum.div (PyNum.ofNat monthly_diffs.length) (PyNum.ofNat date_diffs.length)
        else PyNum.ofInt 0
      let weekly_diffs := date_diffs.filter fun diff => decide (6 ≤ diff ∧ diff ≤ 8)
      let weekly_consistency :=
        if !date_diffs.isEmpty then PyNum.div (PyNum.ofNat weekly_diffs.length) (PyNum.ofNat date_diffs.length)
        else PyNum.ofInt 0
      [("temporal_consistency_score",
          .float (PyNum.div (PyNum.add monthly_consistency weekly_consistency) (PyNum.ofInt 2))),
        ("is_monthly_consistent", .int (if PyNum.lt ⟨7, 10⟩ monthly_consistency then 1 else 0)),
        ("is_weekly_consistent", .int (if PyNum.lt ⟨7, 10⟩ weekly_consistency then 1 else 0))]

def get_vendor_recurrence_profile (transaction : Transaction)
    (all_transactions : List Transaction) : Dict :=
  let vendor_name := pyLower transaction.name
  let vendor_transactions := all_transactions.filter fun t => pyLower t.name == vendor_name
  let total_vendor_transactions := vendor_transactions.length
  if total_vendor_transactions = 0 then
    [("vendor_recurrence_score", .float (PyNum.ofInt 0)),
      ("vendor_recurrence_consistency", .float (PyNum.ofInt 0)),
      ("vendor_is_common_recurring", .int 0)]
  else
    let recurring_users := dedupFirst ((vendor_transactions.filter is_valid_recurring_transaction).map Transaction.user_id)
    let amounts := vendor_transactions.map Transaction.amount
    let amount_consistency :=
      match mostCommonKeys amounts 1 with
      | top :: _ => PyNum.div (PyNum.ofNat (countOccPN amounts top)) (PyNum.ofNat total_vendor_transactions)
      | [] => PyNum.ofInt 0
    [("vendor_recurrence_score",
        .float (PyNum.div (PyNum.ofNat recurring_users.length)
          (PyNum.ofNat (dedupFirst (vendor_transactions.map Transaction.user_id)).length))),
      ("vendor_recurrence_consistency", .float amount_consistency),
      ("vendor_is_common_recurring",
        .int (if ["netflix", "spotify", "microsoft", "amazon prime", "at&t", "verizon", "spectrum",
            "geico", "hugo insurance"].contains vendor_name then 1 else 0))]

def get_user_vendor_relationship_features (transaction : Transaction)
    (all_transactions : List Transaction) : Option Dict :=
  let user_vendor_transactions := all_transactions.filter fun t =>
    t.user_id == transaction.user_id && t.name == transaction.name
  let user_transactions := all_transactions.filter fun t => t.user_id == transaction.user_id
  if user_transactions.isEmpty then
    some [("user_vendor_dependency", .float (PyNum.ofInt 0)), ("user_vendor_tenure", .float (PyNum.ofInt 0))]
  else do
    let dependency := PyNum.div (PyNum.ofNat user_vendor_transactions.length) (PyNum.ofNat user_transactions.length)
    let tenure : ℤ ←
      if !user_vendor_transactions.isEmpty then do
        let dates ← mapOpt (fun t => _parse_date t.date) user_vendor_transactions
        pure (listMaxZ (dates.map PyDate.ord) - listMinZ (dates.map PyDate.ord))
      else pure 0
    pure [("user_vendor_dependency", .float dependency), ("user_vendor_tenure", .int tenure),
      ("user_vendor_transaction_span", .int tenure)]

/- ### The assembler `get_features` -/

/-- Values of the entries of the `get_features` dict literal that precede the
eight days-apart features, evaluated in the literal's textual order (the
fallible ones are sequenced in that order, matching which exception Python
would raise first; the infallible ones cannot affect that order). -/
structure PreVals where
  d1 : Dict
  d2 : Dict
  d3 : Dict
  d4 : Dict
  d5 : Dict
  d6 : Dict
  d7 : Dict
  d8 : Dict
  d9 : Dict
  d10 : Dict
  d11 : Dict
  d12 : Dict
  d13 : Dict
  v14 : ℕ
  v15 : PyNum
  d16 : Dict
  d17 : Dict
  d18 : Dict
  d19 : Dict
  d20 : Dict
  v21 : Bool
  d22 : Dict
  v23 : Bool
  v24 : PyNum
  v25 : ℕ
  v26 : PyNum
  v27 : ℕ
  v28 : ℕ

def featuresPre (transaction : Transaction) (all_transactions : List Transaction) :
    Option PreVals := do
  let d2 ← get_user_transaction_frequency transaction all_transactions
  let d5 ← get_vendor_transaction_frequency transaction all_transactions
  let d11 ← get_temporal_consistency_features transaction all_transactions
  let d13 ← get_user_vendor_relationship_features transaction all_transactions
  let d16 ← get_frequency_features transaction all_transactions
  let d19 ← get_time_features transaction all_transactions
  let v25 ← get_n_transactions_same_day transaction all_transactions 0
  let v26 ← get_pct_transactions_same_day transaction all_transactions 0
  let v27 ← get_n_transactions_same_day transaction all_transactions 1
  let v28 ← get_n_transactions_same_day transaction all_transactions 2
  pure
    { d1 := get_user_recurring_vendor_count transaction all_transactions
      d2 := d2
      d3 := get_vendor_amount_std transaction all_transactions
      d4 := get_vendor_recurring_user_count transaction all_transactions
      d5 := d5
      d6 := get_user_vendor_transaction_count transaction all_transactions
      d7 := get_user_vendor_recurrence_rate transaction all_transactions
      d8 := get_user_vendor_interaction_count transaction all_transactions
      d9 := get_amount_category transaction
      d10 := get_amount_pattern_features transaction all_transactions
      d11 := d11
      d12 := get_vendor_recurrence_profile transaction all_transactions
      d13 := d13
      v14 := get_n_transactions_same_amount transaction all_transactions
      v15 := get_percent_transactions_same_amount transaction all_transactions
      d16 := d16
      d17 := get_amount_features transaction
      d18 := get_vendor_features transaction all_transactions
      d19 := d19
      d20 := get_user_recurrence_rate transaction all_transactions
      v21 := is_valid_recurring_transaction transaction
      d22 := get_user_specific_features transaction all_transactions
      v23 := get_ends_in_99 transaction
      v24 := transaction.amount
      v25 := v25
      v26 := v26
      v27 := v27
      v28 := v28 }

/-- Merge of the full `get_features` dict literal, given the values of all
its entries, in the literal's textual order. -/
def assemble (p : PreVals) (v29 : ℕ) (v30 : PyNum) (v31 : ℕ) (v32 : PyNum) (v33 : ℕ)
    (v34 : PyNum) (v35 : ℕ) (v36 : PyNum) (transaction : Transaction) : Dict :=
  List.foldl dictMerge []
    [p.d1, p.d2, p.d3, p.d4, p.d5, p.d6, p.d7, p.d8, p.d9, p.d10, p.d11, p.d12, p.d13,
      [("n_transactions_same_amount", .int (p.v14 : ℤ))],
      [("percent_transactions_same_amount", .float p.v15)],
      p.d16, p.d17, p.d18, p.d19, p.d20,
      [("is_recurring", .bool p.v21)],
      p.d22,
      [("ends_in_99", .bool p.v23)],
      [("amount", .float p.v24)],
      [("same_day_exact", .int (p.v25 : ℤ))],
      [("pct_transactions_same_day", .float p.v26)],
      [("same_day_off_by_1", .int (p.v27 : ℤ))],
      [("same_day_off_by_2", .int (p.v28 : ℤ))],
      [("14_days_apart_exact", .int (v29 : ℤ))],
      [("pct_14_days_apart_exact", .float v30)],
      [("14_days_apart_off_by_1", .int (v31 : ℤ))],
      [("pct_14_days_apart_off_by_1", .float v32)],
      [("7_days_apart_exact", .int (v33 : ℤ))],
      [("pct_7_days_apart_exact", .float v34)],
      [("7_days_apart_off_by_1", .int (v35 : ℤ))],
      [("pct_7_days_apart_off_by_1", .float v36)],
      [("is_insurance", .bool (get_is_insurance transaction))],
      [("is_utility", .bool (get_is_utility transaction))],
      [("is_phone", .bool (get_is_phone transaction))],
      [("is_always_recurring", .bool (get_is_always_recurring transaction))]]

def get_features (transaction : Transaction) (all_transactions : List Transaction) :
    Option Dict := do
  let p ← featuresPre transaction all_transactions
  let v29 ← get_n_transactions_days_apart transaction all_transactions 14 0
  let v30 ← get_pct_transactions_days_apart transaction all_transactions 14 0
  let v31 ← get_n_transactions_days_apart transaction all_transactions 14 1
  let v32 ← get_pct_transactions_days_apart transaction all_transactions 14 1
  let v33 ← get_n_transactions_days_apart transaction all_transactions 7 0
  let v34 ← get_pct_transactions_days_apart transaction all_transactions 7 0
  let v35 ← get_n_transactions_days_apart transaction all_transactions 7 1
  let v36 ← get_pct_transactions_days_apart transaction all_transactions 7 1
  pure (assemble p v29 v30 v31 v32 v33 v34 v35 v36 transaction)

/- ### The `lru_cache` on `_parse_date`, modelled explicitly -/

/-- The memoization cache of `_parse_date`: parsed results keyed by the date
string. `lru_cache` eviction only removes entries, never changes a stored
value, so capacity is not modelled; exceptions are not cached by
`lru_cache`, so failed parses add no entry. -/
abbrev Cache := List (String × PyDate)

def ValidCache (c : Cache) : Prop := ∀ p ∈ c, strptimeYMD p.1 = some p.2

def parse_date_cached (c : Cache) (s : String) : Option PyDate × Cache :=
  match c.find? fun p => p.1 == s with
  | some p => (some p.2, c)
  | none =>
    match strptimeYMD s with
    | some d => (some d, (s, d) :: c)
    | none => (none, c)

/-- The loop of `get_n_transactions_days_apart` with the date cache threaded
through each `_parse_date` call. -/
def countDatesC (c : Cache) (transaction_date : PyDate) (l : List Transaction)
    (n_days_apart n_days_off : ℤ) (acc : ℕ) : Option ℕ × Cache :=
  match l with
  | [] => (some acc, c)
  | t :: rest =>
    match parse_date_cached c t.date with
    | (some d, c') =>
      countDatesC c' transaction_date rest n_days_apart n_days_off
        (acc + if daysApartHit transaction_date.ord d.ord n_days_apart n_days_off then 1 else 0)
    | (none, c') => (none, c')

def get_n_transactions_days_apart_c (c : Cache) (transaction : Transaction)
    (all_transactions : List Transaction) (n_days_apart n_days_off : ℤ) : Option ℕ × Cache :=
  match parse_date_cached c transaction.date with
  | (some td, c') => countDatesC c' td all_transactions n_days_apart n_days_off 0
  | (none, c') => (none, c')

def get_pct_transactions_days_apart_c (c : Cache) (transaction : Transaction)
    (all_transactions : List Transaction) (n_days_apart n_days_off : ℤ) : Option PyNum × Cache :=
  match get_n_transactions_days_apart_c c transaction all_transactions n_days_apart n_days_off with
  | (some n, c') => (pydivO (PyNum.ofNat n) (PyNum.ofNat all_transactions.length), c')
  | (none, c') => (none, c')

/-- `get_features` with the `_parse_date` memoization cache threaded through
the eight days-apart entries (the only consumers of `_parse_date`; every
other scorer calls `datetime.strptime` directly and touches no state). -/
def get_features_c (c : Cache) (transaction : Transaction)
    (all_transactions : List Transaction) : Option Dict × Cache :=
  match featuresPre transaction all_transactions with
  | none => (none, c)
  | some p =>
    match get_n_transactions_days_apart_c c transaction all_transactions 14 0 with
    | (none, c1) => (none, c1)
    | (some v29, c1) =>
      match get_pct_transactions_days_apart_c c1 transaction all_transactions 14 0 with
      | (none, c2) => (none, c2)
      | (some v30, c2) =>
        match get_n_transactions_days_apart_c c2 transaction all_transactions 14 1 with
        | (none, c3) => (none, c3)
        | (some v31, c3) =>
          match get_pct_transactions_days_apart_c c3 transaction all_transactions 14 1 with
          | (none, c4) => (none, c4)
          | (some v32, c4) =>
            match get_n_transactions_days_apart_c c4 transaction all_transactions 7 0 with
            | (none, c5) => (none, c5)
            | (some v33, c5) =>
              match get_pct_transactions_days_apart_c c5 transaction all_transactions 7 0 with
              | (none, c6) => (none, c6)
              | (some v34, c6) =>
                match get_n_transactions_days_apart_c c6 transaction all_transactions 7 1 with
                | (none, c7) => (none, c7)
                | (some v35, c7) =>
                  match get_pct_transactions_days_apart_c c7 transaction all_transactions 7 1 with
                  | (none, c8) => (none, c8)
                  | (some v36, c8) =>
                    (some (assemble p v29 v30 v31 v32 v33 v34 v35 v36 transaction), c8)

/-- The spec's formulation of the ends-in-99 check,
`round(amount*100) mod 100 == 99`; the source's `get_ends_in_99` omits the
rounding. Written from the spec's words for comparison with the source. -/
def get_ends_in_99_spec (transaction : Transaction) : Bool :=
  Int.emod (PyNum.round (PyNum.mul transaction.amount (PyNum.ofInt 100))) 100 == 99

/- ### Dictionary lemmas -/

theorem lookup_dictInsert (d : Dict) (kv : String × FVal) (k : String) :
    List.lookup k (dictInsert d kv) = if k = kv.1 then some kv.2 else List.lookup k d := by
  induction d with
  | nil =>
    by_cases hk : k = kv.1
    · simp [dictInsert, List.lookup, hk]
    · have hb : (k == kv.1) = false := beq_eq_false_iff_ne.mpr hk
      simp [dictInsert, List.lookup, hb, hk]
  | cons p d ih =>
    by_cases hp : p.1 = kv.1
    · by_cases hk : k = kv.1
      · simp [dictInsert, if_pos hp, List.lookup, hk]
      · have hb : (k == kv.1) = false := beq_eq_false_iff_ne.mpr hk
        have hkp : k ≠ p.1 := fun h => hk (h.trans hp)
        have hb2 : (k == p.1) = false := beq_eq_false_iff_ne.mpr hkp
        simp [dictInsert, if_pos hp, List.lookup, hb, hb2, hk]
    · by_cases hk : k = p.1
      · have hkkv : k ≠ kv.1 := fun h => hp (hk ▸ h)
        have hb : (k == p.1) = true := beq_iff_eq.mpr hk
        simp [dictInsert, if_neg hp, List.lookup, hb, hkkv]
      · have hb : (k == p.1) = false := beq_eq_false_iff_ne.mpr hk
        by_cases hkkv : k = kv.1
        · subst hkkv
          simp [dictInsert, if_neg hp, List.lookup, hb, ih]
        · simp [dictInsert, if_neg hp, List.lookup, hb, hkkv, ih]

theorem lookup_dictMerge_of_not_mem (e : Dict) : ∀ (d : Dict) (k : String),
    k ∉ dkeys e → List.lookup k (dictMerge d e) = List.lookup k d := by
  induction e with
  | nil => intro d k _; rfl
  | cons p e ih =>
    intro d k hk
    simp only [dkeys, List.map_cons, List.mem_cons, not_or] at hk
    have step : dictMerge d (p :: e) = dictMerge (dictInsert d p) e := rfl
    rw [step, ih (dictInsert d p) k (by simpa [dkeys] using hk.2), lookup_dictInsert,
      if_neg hk.1]

theorem dkeys_dictInsert_sub (d : Dict) (kv : String × FVal) :
    dkeys (dictInsert d kv) = dkeys d ∨ dkeys (dictInsert d kv) = dkeys d ++ [kv.1] := by
  induction d with
  | nil => right; simp [dictInsert, dkeys]
  | cons p d ih =>
    by_cases hp : p.1 = kv.1
    · left; simp [dictInsert, if_pos hp, dkeys, hp]
    · rcases ih with h | h
      · left; simp [dictInsert, if_neg hp, dkeys] at h ⊢; exact h
      · right; simp [dictInsert, if_neg hp, dkeys] at h ⊢; exact h

theorem mem_dkeys_dictInsert {d : Dict} {kv : String × FVal} {k : String}
    (h : k ∈ dkeys (dictInsert d kv)) : k ∈ dkeys d ∨ k = kv.1 := by
  rcases dkeys_dictInsert_sub d kv with he | he <;> rw [he] at h
  · exact Or.inl h
  · simpa using h

theorem nodup_dictInsert (d : Dict) (kv : String × FVal) (h : (dkeys d).Nodup) :
    (dkeys (dictInsert d kv)).Nodup := by
  induction d with
  | nil => simp [dictInsert, dkeys]
  | cons p d ih =>
    simp only [dkeys, List.map_cons, List.nodup_cons] at h
    by_cases hp : p.1 = kv.1
    · simp only [dictInsert, if_pos hp, dkeys, List.map_cons, List.nodup_cons]
      exact ⟨hp ▸ h.1, h.2⟩
    · simp only [dictInsert, if_neg hp, dkeys, List.map_cons, List.nodup_cons]
      refine ⟨fun hmem => ?_, ih h.2⟩
      rcases mem_dkeys_dictInsert hmem with hmem | hmem
      · exact h.1 hmem
      · exact hp hmem

theorem nodup_dictMerge (e : Dict) : ∀ d : Dict, (dkeys d).Nodup →
    (dkeys (dictMerge d e)).Nodup := by
  induction e with
  | nil => intro d h; exact h
  | cons p e ih => intro d h; exact ih (dictInsert d p) (nodup_dictInsert d p h)

theorem nodup_foldl_dictMerge (L : List Dict) : ∀ d : Dict, (dkeys d).Nodup →
    (dkeys (List.foldl dictMerge d L)).Nodup := by
  induction L with
  | nil => intro d h; exact h
  | cons e L ih => intro d h; exact ih (dictMerge d e) (nodup_dictMerge e d h)

/- ### Option plumbing lemmas -/

theorem mapOpt_cons {a b : Type} (f : a -> Option b) (x : a) (l : List a) :
    mapOpt f (x :: l) =
      Option.bind (f x) fun y => Option.bind (mapOpt f l) fun ys => some (y :: ys) := rfl

theorem mapOpt_length {a b : Type} (f : a -> Option b) :
    ∀ {l : List a} {ys : List b}, mapOpt f l = some ys → ys.length = l.length := by
  intro l
  induction l with
  | nil =>
    intro ys h
    simp only [mapOpt, Option.some.injEq] at h
    subst h; rfl
  | cons x l ih =>
    intro ys h
    rw [mapOpt_cons] at h
    simp only [Option.bind_eq_some, Option.some.injEq] at h
    obtain ⟨y, _, ys', hys', rfl⟩ := h
    simp [ih hys']

theorem mapOpt_mem {a b : Type} (f : a -> Option b) :
    ∀ {l : List a} {ys : List b}, mapOpt f l = some ys →
    ∀ y ∈ ys, ∃ x ∈ l, f x = some y := by
  intro l
  induction l with
  | nil =>
    intro ys h
    simp only [mapOpt, Option.some.injEq] at h
    subst h; simp
  | cons x l ih =>
    intro ys h
    rw [mapOpt_cons] at h
    simp only [Option.bind_eq_some, Option.some.injEq] at h
    obtain ⟨y, hy, ys', hys', rfl⟩ := h
    intro z hz
    rcases List.mem_cons.mp hz with rfl | hz
    · exact ⟨x, List.mem_cons_self x l, hy⟩
    · obtain ⟨v, hv, hpv⟩ := ih hys' z hz
      exact ⟨v, List.mem_cons_of_mem x hv, hpv⟩

theorem lookup_foldl_merge_of_not_mem (L : List Dict) : ∀ (d : Dict) (k : String),
    (∀ e ∈ L, k ∉ dkeys e) →
    List.lookup k (List.foldl dictMerge d L) = List.lookup k d := by
  induction L with
  | nil => intro d k _; rfl
  | cons e L ih =>
    intro d k h
    rw [List.foldl_cons, ih (dictMerge d e) k fun e' he' => h e' (List.mem_cons_of_mem e he'),
      lookup_dictMerge_of_not_mem e d k (h e (List.mem_cons_self e L))]

theorem dkeys_vendor_features (t : Transaction) (all : List Transaction) :
    dkeys (get_vendor_features t all) = ["n_transactions_with_vendor", "avg_amount_for_vendor"] := rfl

theorem dkeys_user_recurrence_rate (t : Transaction) (all : List Transaction) :
    dkeys (get_user_recurrence_rate t all) = ["user_recurrence_rate"] := by
  by_cases h : (List.filter (fun u => u.user_id == t.user_id) all).length < 2 <;>
    simp [get_user_recurrence_rate, h, dkeys]

theorem dkeys_user_specific (t : Transaction) (all : List Transaction) :
    dkeys (get_user_specific_features t all) =
      ["user_transaction_count", "user_recurring_transaction_count",
        "user_recurring_transaction_rate"] := by
  by_cases h : (List.filter (fun u => u.user_id == t.user_id) all).length < 2 <;>
    simp [get_user_specific_features, h, dkeys]

theorem get_time_features_def (t : Transaction) (all : List Transaction) :
    get_time_features t all =
      Option.bind (_parse_date t.date) fun date_obj =>
        Option.bind (mapOpt (fun u => _parse_date u.date)
            (all.filter fun u => u.name == t.name)) fun parsed =>
          Option.bind ((List.insertionSort (· ≤ ·) (parsed.map PyDate.ord)).findIdx?
              fun d => d == date_obj.ord) fun idx =>
            some [("month", .int (date_obj.month : ℤ)),
              ("days_until_next_transaction",
                .int (if idx < (List.insertionSort (· ≤ ·) (parsed.map PyDate.ord)).length - 1 then
                  (List.insertionSort (· ≤ ·) (parsed.map PyDate.ord)).getD (idx + 1) 0 - date_obj.ord
                else 0))] := rfl

theorem dkeys_time_features {t : Transaction} {all : List Transaction} {l : Dict}
    (h : get_time_features t all = some l) :
    dkeys l = ["month", "days_until_next_transaction"] := by
  rw [get_time_features_def] at h
  simp only [Option.bind_eq_some, Option.some.injEq] at h
  obtain ⟨a, -, b, -, c, -, rfl⟩ := h
  rfl

theorem get_n_transactions_days_apart_def (t : Transaction) (all : List Transaction)
    (n_days_apart n_days_off : ℤ) :
    get_n_transactions_days_apart t all n_days_apart n_days_off =
      Option.bind (_parse_date t.date) fun transaction_date =>
        Option.bind (mapOpt (fun u => _parse_date u.date) all) fun parsed =>
          some (parsed.countP fun d =>
            daysApartHit transaction_date.ord d.ord n_days_apart n_days_off) := rfl

theorem get_pct_transactions_days_apart_def (t : Transaction) (all : List Transaction)
    (n_days_apart n_days_off : ℤ) :
    get_pct_transactions_days_apart t all n_days_apart n_days_off =
      Option.bind (get_n_transactions_days_apart t all n_days_apart n_days_off) fun n =>
        pydivO (PyNum.ofNat n) (PyNum.ofNat all.length) := rfl

theorem featuresPre_def (t : Transaction) (all : List Transaction) :
    featuresPre t all =
      Option.bind (get_user_transaction_frequency t all) fun d2 =>
      Option.bind (get_vendor_transaction_frequency t all) fun d5 =>
      Option.bind (get_temporal_consistency_features t all) fun d11 =>
      Option.bind (get_user_vendor_relationship_features t all) fun d13 =>
      Option.bind (get_frequency_features t all) fun d16 =>
      Option.bind (get_time_features t all) fun d19 =>
      Option.bind (get_n_transactions_same_day t all 0) fun v25 =>
      Option.bind (get_pct_transactions_same_day t all 0) fun v26 =>
      Option.bind (get_n_transactions_same_day t all 1) fun v27 =>
      Option.bind (get_n_transactions_same_day t all 2) fun v28 =>
      some ⟨get_user_recurring_vendor_count t all, d2, get_vendor_amount_std t all,
        get_vendor_recurring_user_count t all, d5, get_user_vendor_transaction_count t all,
        get_user_vendor_recurrence_rate t all, get_user_vendor_interaction_count t all,
        get_amount_category t, get_amount_pattern_features t all, d11,
        get_vendor_recurrence_profile t all, d13,
        get_n_transactions_same_amount t all, get_percent_transactions_same_amount t all,
        d16, get_amount_features t, get_vendor_features t all, d19,
        get_user_recurrence_rate t all, is_valid_recurring_transaction t,
        get_user_specific_features t all, get_ends_in_99 t, t.amount,
        v25, v26, v27, v28⟩ := rfl

theorem get_features_def (t : Transaction) (all : List Transaction) :
    get_features t all =
      Option.bind (featuresPre t all) fun p =>
      Option.bind (get_n_transactions_days_apart t all 14 0) fun v29 =>
      Option.bind (get_pct_transactions_days_apart t all 14 0) fun v30 =>
      Option.bind (get_n_transactions_days_apart t all 14 1) fun v31 =>
      Option.bind (get_pct_transactions_days_apart t all 14 1) fun v32 =>
      Option.bind (get_n_transactions_days_apart t all 7 0) fun v33 =>
      Option.bind (get_pct_transactions_days_apart t all 7 0) fun v34 =>
      Option.bind (get_n_transactions_days_apart t all 7 1) fun v35 =>
      Option.bind (get_pct_transactions_days_apart t all 7 1) fun v36 =>
      some (assemble p v29 v30 v31 v32 v33 v34 v35 v36 t) := rfl

theorem featuresPre_none_of_time {t : Transaction} {all : List Transaction}
    (h : get_time_features t all = none) : featuresPre t all = none := by
  rw [featuresPre_def]
  cases get_user_transaction_frequency t all <;>
    cases get_vendor_transaction_frequency t all <;>
      cases get_temporal_consistency_features t all <;>
        cases get_user_vendor_relationship_features t all <;>
          cases get_frequency_features t all <;>
            simp [h]

theorem get_features_none_of_pre {t : Transaction} {all : List Transaction}
    (h : featuresPre t all = none) : get_features t all = none := by
  rw [get_features_def, h]
  rfl

theorem findIdx?_eq_none_of_all {α : Type} (p : α → Bool) :
    ∀ (l : List α) (i : ℕ), (∀ x ∈ l, p x = false) → List.findIdx? p l i = none := by
  intro l
  induction l with
  | nil => intro i _; rfl
  | cons x l ih =>
    intro i h
    rw [List.findIdx?_cons, h x (List.mem_cons_self x l)]
    simp only [Bool.false_eq_true, if_false]
    exact ih (i + 1) fun y hy => h y (List.mem_cons_of_mem x hy)

/- ### Cache-agreement lemmas -/

theorem parse_date_cached_spec (c : Cache) (s : String) (h : ValidCache c) :
    (parse_date_cached c s).1 = _parse_date s ∧ ValidCache (parse_date_cached c s).2 := by
  unfold parse_date_cached
  cases hf : List.find? (fun p => p.1 == s) c with
  | some p =>
    have hmem : p ∈ c := List.mem_of_find?_eq_some hf
    have hps : p.1 = s := by simpa using List.find?_some hf
    exact ⟨by simp [_parse_date, ← hps, h p hmem], h⟩
  | none =>
    cases hs : strptimeYMD s with
    | some d =>
      refine ⟨by simp [_parse_date, hs], ?_⟩
      intro q hq
      rcases List.mem_cons.mp hq with rfl | hq
      · exact hs
      · exact h q hq
    | none => exact ⟨by simp [_parse_date, hs], h⟩

theorem countDatesC_spec (td : PyDate) (na off : ℤ) :
    ∀ (l : List Transaction) (c : Cache) (acc : ℕ), ValidCache c →
    (countDatesC c td l na off acc).1 =
      ((mapOpt (fun u => _parse_date u.date) l).map fun ds =>
        acc + ds.countP fun d => daysApartHit td.ord d.ord na off) ∧
    ValidCache (countDatesC c td l na off acc).2 := by
  intro l
  induction l with
  | nil => intro c acc h; exact ⟨by simp [countDatesC, mapOpt], h⟩
  | cons u l ih =>
    intro c acc h
    obtain ⟨h1, h2⟩ := parse_date_cached_spec c u.date h
    unfold countDatesC
    cases hp : parse_date_cached c u.date with
    | mk o c2 =>
      rw [hp] at h1 h2
      simp only at h1 h2
      cases o with
      | none =>
        refine ⟨?_, h2⟩
        rw [mapOpt_cons, ← h1]
        rfl
      | some d =>
        obtain ⟨ih1, ih2⟩ :=
          ih c2 (acc + if daysApartHit td.ord d.ord na off then 1 else 0) h2
        refine ⟨?_, ih2⟩
        rw [ih1, mapOpt_cons, ← h1]
        cases mapOpt (fun u => _parse_date u.date) l with
        | none => rfl
        | some ds =>
          cases hday : daysApartHit td.ord d.ord na off <;>
            simp [hday, List.countP_cons] <;> omega

theorem get_n_days_apart_c_spec (c : Cache) (t : Transaction) (all : List Transaction)
    (na off : ℤ) (h : ValidCache c) :
    (get_n_transactions_days_apart_c c t all na off).1 =
      get_n_transactions_days_apart t all na off ∧
    ValidCache (get_n_transactions_days_apart_c c t all na off).2 := by
  obtain ⟨h1, h2⟩ := parse_date_cached_spec c t.date h
  unfold get_n_transactions_days_apart_c
  rw [get_n_transactions_days_apart_def]
  cases hp : parse_date_cached c t.date with
  | mk o c2 =>
    rw [hp] at h1 h2
    simp only at h1 h2
    cases o with
    | none => rw [← h1]; exact ⟨rfl, h2⟩
    | some td =>
      obtain ⟨k1, k2⟩ := countDatesC_spec td na off all c2 0 h2
      rw [← h1]
      refine ⟨?_, k2⟩
      rw [k1]
      cases mapOpt (fun u => _parse_date u.date) all with
      | none => rfl
      | some ds => simp

theorem get_pct_days_apart_c_spec (c : Cache) (t : Transaction) (all : List Transaction)
    (na off : ℤ) (h : ValidCache c) :
    (get_pct_transactions_days_apart_c c t all na off).1 =
      get_pct_transactions_days_apart t all na off ∧
    ValidCache (get_pct_transactions_days_apart_c c t all na off).2 := by
  obtain ⟨h1, h2⟩ := get_n_days_apart_c_spec c t all na off h
  unfold get_pct_transactions_days_apart_c
  rw [get_pct_transactions_days_apart_def]
  cases hp : get_n_transactions_days_apart_c c t all na off with
  | mk o c2 =>
    rw [hp] at h1 h2
    simp only at h1 h2
    cases o with
    | none => rw [← h1]; exact ⟨rfl, h2⟩
    | some n => rw [← h1]; exact ⟨rfl, h2⟩

theorem get_features_c_spec (c : Cache) (t : Transaction) (all : List Transaction)
    (h : ValidCache c) :
    (get_features_c c t all).1 = get_features t all ∧
    ValidCache (get_features_c c t all).2 := by
  unfold get_features_c
  rw [get_features_def]
  cases featuresPre t all with
  | none => exact ⟨rfl, h⟩
  | some p =>
    obtain ⟨e1, v1⟩ := get_n_days_apart_c_spec c t all 14 0 h
    cases h1 : get_n_transactions_days_apart_c c t all 14 0 with
    | mk o1 c1 =>
    rw [h1] at e1 v1
    simp only at e1 v1
    rw [← e1]
    cases o1 with
    | none => exact ⟨rfl, v1⟩
    | some v29 =>
    dsimp only
    obtain ⟨e2, v2⟩ := get_pct_days_apart_c_spec c1 t all 14 0 v1
    cases h2 : get_pct_transactions_days_apart_c c1 t all 14 0 with
    | mk o2 c2 =>
    rw [h2] at e2 v2
    simp only at e2 v2
    rw [← e2]
    cases o2 with
    | none => exact ⟨rfl, v2⟩
    | some v30 =>
    dsimp only
    obtain ⟨e3, v3⟩ := get_n_days_apart_c_spec c2 t all 14 1 v2
    cases h3 : get_n_transactions_days_apart_c c2 t all 14 1 with
    | mk o3 c3 =>
    rw [h3] at e3 v3
    simp only at e3 v3
    rw [← e3]
    cases o3 with
    | none => exact ⟨rfl, v3⟩
    | some v31 =>
    dsimp only
    obtain ⟨e4, v4⟩ := get_pct_days_apart_c_spec c3 t all 14 1 v3
    cases h4 : get_pct_transactions_days_apart_c c3 t all 14 1 with
    | mk o4 c4 =>
    rw [h4] at e4 v4
    simp only at e4 v4
    rw [← e4]
    cases o4 with
    | none => exact ⟨rfl, v4⟩
    | some v32 =>
    dsimp only
    obtain ⟨e5, v5⟩ := get_n_days_apart_c_spec c4 t all 7 0 v4
    cases h5 : get_n_transactions_days_apart_c c4 t all 7 0 with
    | mk o5 c5 =>
    rw [h5] at e5 v5
    simp only at e5 v5
    rw [← e5]
    cases o5 with
    | none => exact ⟨rfl, v5⟩
    | some v33 =>
    dsimp only
    obtain ⟨e6, v6⟩ := get_pct_days_apart_c_spec c5 t all 7 0 v5
    cases h6 : get_pct_transactions_days_apart_c c5 t all 7 0 with
    | mk o6 c6 =>
    rw [h6] at e6 v6
    simp only at e6 v6
    rw [← e6]
    cases o6 with
    | none => exact ⟨rfl, v6⟩
    | some v34 =>
    dsimp only
    obtain ⟨e7, v7⟩ := get_n_days_apart_c_spec c6 t all 7 1 v6
    cases h7 : get_n_transactions_days_apart_c c6 t all 7 1 with
    | mk o7 c7 =>
    rw [h7] at e7 v7
    simp only at e7 v7
    rw [← e7]
    cases o7 with
    | none => exact ⟨rfl, v7⟩
    | some v35 =>
    dsimp only
    obtain ⟨e8, v8⟩ := get_pct_days_apart_c_spec c7 t all 7 1 v7
    cases h8 : get_pct_transactions_days_apart_c c7 t all 7 1 with
    | mk o8 c8 =>
    rw [h8] at e8 v8
    simp only at e8 v8
    rw [← e8]
    cases o8 with
    | none => exact ⟨rfl, v8⟩
    | some v36 => exact ⟨rfl, v8⟩


/- ### Claim theorems -/

/-- C1: the claim says every percentage-typed feature evaluates to 0.0 on an
empty history with no exception; in the code only
`get_percent_transactions_same_amount` guards the empty case, while
`get_pct_transactions_days_apart` and `get_pct_transactions_same_day` divide
by `len(all_transactions)` unguarded and raise `ZeroDivisionError` (modelled
as `none`). This theorem evaluates the code at the failing input. -/
theorem c1_empty_history_pct_features_raise :
    get_pct_transactions_days_apart ⟨"id1", "u1", "VendorX", ⟨10, 1⟩, "2024-01-01"⟩ [] 14 0 =
      none ∧
    get_pct_transactions_same_day ⟨"id1", "u1", "VendorX", ⟨10, 1⟩, "2024-01-01"⟩ [] 0 = none ∧
    get_percent_transactions_same_amount ⟨"id1", "u1", "VendorX", ⟨10, 1⟩, "2024-01-01"⟩ [] =
      PyNum.ofInt 0 := by
  decide

/-- C3: the claim says `get_features` always returns the same fixed key set,
with `user_vendor_transaction_span` present even when the target's user has
no transactions in the history. In the code the empty-user branch of
`get_user_vendor_relationship_features` returns only two keys and the span
key is omitted, while it is present when the user has transactions: the two
evaluations below exhibit the inconsistent key sets. -/
theorem c3_transaction_span_key_omitted :
    (get_features ⟨"i1", "u1", "A", ⟨1, 1⟩, "2024-01-01"⟩
        [⟨"i2", "u2", "A", ⟨1, 1⟩, "2024-01-01"⟩]).map
      (fun d => (dkeys d).contains "user_vendor_transaction_span") = some false ∧
    (get_features ⟨"i1", "u1", "A", ⟨1, 1⟩, "2024-01-01"⟩
        [⟨"i1", "u1", "A", ⟨1, 1⟩, "2024-01-01"⟩]).map
      (fun d => (dkeys d).contains "user_vendor_transaction_span") = some true := by
  decide

/-- C4: every transaction whose lower-cased vendor name is not apple, brigit,
cleo ai or credit genie is classified as a valid recurring transaction, and
for brigit the classifier returns true exactly when the amount is 9.99 or
14.99. -/
theorem c4_default_true_and_brigit (t : Transaction) :
    (pyLower t.name ∉ (["apple", "brigit", "cleo ai", "credit genie"] : List String) →
      is_valid_recurring_transaction t = true) ∧
    (pyLower t.name = "brigit" →
      (is_valid_recurring_transaction t = true ↔
        PyNum.eq t.amount ⟨999, 100⟩ = true ∨ PyNum.eq t.amount ⟨1499, 100⟩ = true)) := by
  constructor
  · intro h
    simp only [List.mem_cons, List.not_mem_nil, or_false, not_or] at h
    obtain ⟨h1, h2, h3, h4⟩ := h
    unfold is_valid_recurring_transaction
    simp only [beq_eq_false_iff_ne.mpr h1, beq_eq_false_iff_ne.mpr h2,
      beq_eq_false_iff_ne.mpr h3, beq_eq_false_iff_ne.mpr h4, Bool.false_eq_true, if_false]
    exact ite_self true
  · intro h
    unfold is_valid_recurring_transaction
    rw [h]
    simp

/-- C4 witness: a brigit transaction at 9.99 and an unlisted vendor both
classify as recurring. -/
theorem c4_witness :
    is_valid_recurring_transaction ⟨"i", "u", "Brigit", ⟨999, 100⟩, "2024-01-01"⟩ = true ∧
    is_valid_recurring_transaction ⟨"i2", "u2", "SomeVendor", ⟨5, 1⟩, "2024-01-01"⟩ = true := by
  constructor
  · exact ((c4_default_true_and_brigit _).2 (by decide)).mpr (Or.inl (by decide))
  · exact (c4_default_true_and_brigit _).1 (by decide)

/-- C8 counterexample: the claim describes the ends-in-99 check as
`round(amount*100) mod 100 == 99`, but the code computes
`(amount*100) % 100 == 99` with no rounding; at amount 15.994 the code
yields false while the spec's formula yields true. -/
theorem c8_ends_in_99_no_rounding :
    get_ends_in_99 ⟨"i", "u", "x", ⟨15994, 1000⟩, "2024-01-01"⟩ = false ∧
    get_ends_in_99_spec ⟨"i", "u", "x", ⟨15994, 1000⟩, "2024-01-01"⟩ = true := by
  decide

/-- C8 (amended): for the Netflix transaction at 15.99 on 2024-03-01 with the
history equal to just itself, `get_features` reports is_always_recurring
true, one same-amount transaction, same-amount share 1.0, and ends_in_99
true, where ends-in-99 is the unrounded `(amount*100) % 100 == 99` check
(which agrees with Python's float arithmetic at this amount). -/
theorem c8_netflix_scenario :
    (get_features ⟨"id1", "u1", "Netflix", ⟨1599, 100⟩, "2024-03-01"⟩
        [⟨"id1", "u1", "Netflix", ⟨1599, 100⟩, "2024-03-01"⟩]).map
      (fun d => (List.lookup "is_always_recurring" d, List.lookup "n_transactions_same_amount" d,
        List.lookup "percent_transactions_same_amount" d, List.lookup "ends_in_99" d)) =
    some (some (.bool true), some (.int 1), some (.float ⟨1, 1⟩), some (.bool true)) := by
  decide

/-- C10: whenever no transaction in the history has both the target's
(case-sensitive) vendor name and a date parsing to the target's date,
`get_time_features` reaches `list.index` on a list not containing the
target's parsed date and raises `ValueError` (modelled as `none`), so
`get_features` returns no mapping. -/
theorem c10_get_features_not_total (t : Transaction) (all : List Transaction)
    (h : ∀ u ∈ all, u.name = t.name → ∀ td, _parse_date t.date = some td →
      ∀ d, _parse_date u.date = some d → d.ord ≠ td.ord) :
    get_time_features t all = none ∧ get_features t all = none := by
  have htf : get_time_features t all = none := by
    rw [get_time_features_def]
    cases htd : _parse_date t.date with
    | none => rfl
    | some td =>
      cases hm : mapOpt (fun u => _parse_date u.date) (all.filter fun u => u.name == t.name) with
      | none => rfl
      | some parsed =>
        have hnone : (List.insertionSort (· ≤ ·) (parsed.map PyDate.ord)).findIdx?
            (fun d => d == td.ord) = none := by
          apply findIdx?_eq_none_of_all
          intro x hx
          have hx2 : x ∈ parsed.map PyDate.ord :=
            ((List.perm_insertionSort _ _).mem_iff).mp hx
          obtain ⟨d, hd, rfl⟩ := List.mem_map.mp hx2
          obtain ⟨u, hu, hpu⟩ := mapOpt_mem _ hm d hd
          have hufil := List.mem_filter.mp hu
          have hname : u.name = t.name := by simpa using hufil.2
          have hne := h u hufil.1 hname td htd d hpu
          simpa using hne
        simp only [Option.some_bind]
        rw [hnone]
        rfl
  exact ⟨htf, get_features_none_of_pre (featuresPre_none_of_time htf)⟩

/-- C10 witness: a target absent from the history (here: a history holding
only a different vendor) makes `get_features` raise. -/
theorem c10_witness :
    get_features ⟨"i", "u", "X", ⟨1, 1⟩, "2024-01-01"⟩
      [⟨"j", "u", "Y", ⟨1, 1⟩, "2024-01-01"⟩] = none := by
  refine (c10_get_features_not_total _ _ ?_).2
  intro u hu hname td htd d hd
  simp only [List.mem_singleton] at hu
  subst hu
  exact absurd hname (by decide)

/-- Monotonicity of the loop-body acceptance predicate in the tolerance. -/
theorem daysApartHit_mono {a b n_days_apart tol1 tol2 : ℤ} (htol : tol1 ≤ tol2)
    (hh : daysApartHit a b n_days_apart tol1 = true) :
    daysApartHit a b n_days_apart tol2 = true := by
  unfold daysApartHit at hh ⊢
  generalize hdiff : |b - a| = diff at hh ⊢
  generalize hrem : Int.emod diff n_days_apart = rem at hh ⊢
  by_cases hc1 : diff < n_days_apart - tol1
  · rw [if_pos hc1] at hh
    exact absurd hh (by simp)
  · rw [if_neg hc1] at hh
    rw [if_neg (by omega)]
    simp only [Bool.or_eq_true, decide_eq_true_eq] at hh ⊢
    omega

/-- C6: for a fixed positive interval, the count returned by
`get_n_transactions_days_apart` is monotone non-decreasing in the tolerance:
a larger `n_days_off` never excludes a candidate a smaller one accepted. -/
theorem c6_days_apart_monotone_in_tolerance (t : Transaction) (all : List Transaction)
    (n_days_apart tol1 tol2 : ℤ) (n1 n2 : ℕ) (hpos : 0 < n_days_apart) (htol : tol1 ≤ tol2)
    (h1 : get_n_transactions_days_apart t all n_days_apart tol1 = some n1)
    (h2 : get_n_transactions_days_apart t all n_days_apart tol2 = some n2) : n1 ≤ n2 := by
  rw [get_n_transactions_days_apart_def] at h1 h2
  simp only [Option.bind_eq_some, Option.some.injEq] at h1 h2
  obtain ⟨td, htd, ds, hds, hn1⟩ := h1
  obtain ⟨td2, htd2, ds2, hds2, hn2⟩ := h2
  rw [htd] at htd2
  injection htd2 with htdeq
  subst htdeq
  rw [hds] at hds2
  injection hds2 with hdseq
  subst hdseq
  rw [← hn1, ← hn2]
  exact List.countP_mono_left fun d _ hd => daysApartHit_mono htol hd

/-- C6 witness: counting 7-day-apart transactions with tolerances 0 and 1. -/
theorem c6_witness : (1 : ℕ) ≤ 1 :=
  c6_days_apart_monotone_in_tolerance ⟨"i", "u", "V", ⟨1, 1⟩, "2024-01-01"⟩
    [⟨"j", "u", "V", ⟨1, 1⟩, "2024-01-08"⟩] 7 0 1 1 1 (by decide) (by decide) (by decide)
    (by decide)

/-- C9: `get_features` is deterministic and the `_parse_date` memoization
cache never changes a result: starting from any valid cache, the cached run
returns exactly the pure `get_features` value, leaves the cache valid, and
an immediately repeated call returns the identical mapping. -/
theorem c9_idempotent_cache_invariant (c : Cache) (t : Transaction) (all : List Transaction)
    (h : ValidCache c) :
    (get_features_c c t all).1 = get_features t all ∧
    ValidCache (get_features_c c t all).2 ∧
    (get_features_c (get_features_c c t all).2 t all).1 = (get_features_c c t all).1 := by
  obtain ⟨h1, h2⟩ := get_features_c_spec c t all h
  exact ⟨h1, h2, by rw [(get_features_c_spec _ t all h2).1, h1]⟩

/-- C9 witness: running the cached computation from the empty cache on the
Netflix scenario returns the pure `get_features` result. -/
theorem c9_witness :
    (get_features_c [] ⟨"id1", "u1", "Netflix", ⟨1599, 100⟩, "2024-03-01"⟩
        [⟨"id1", "u1", "Netflix", ⟨1599, 100⟩, "2024-03-01"⟩]).1 =
      get_features ⟨"id1", "u1", "Netflix", ⟨1599, 100⟩, "2024-03-01"⟩
        [⟨"id1", "u1", "Netflix", ⟨1599, 100⟩, "2024-03-01"⟩] :=
  (c9_idempotent_cache_invariant [] _ _ (fun p hp => absurd hp (List.not_mem_nil p))).1

theorem consecDiffs_length (l : List ℤ) : (consecDiffs l).length = l.length - 1 := by
  simp only [consecDiffs, List.length_zipWith, List.length_tail]
  omega

theorem vendorGaps_length {t : Transaction} {all : List Transaction} {g : List ℤ}
    (h : vendorGaps t all = some g) :
    g.length = (all.filter fun u => u.name == t.name).length - 1 := by
  unfold vendorGaps sortedVendorDates at h
  simp only [Option.map_eq_some'] at h
  obtain ⟨s, hs, rfl⟩ := h
  obtain ⟨parsed, hp, rfl⟩ := hs
  rw [consecDiffs_length]
  simp [List.length_insertionSort, List.length_map, mapOpt_length _ hp]

/-- The element selected at the floor-half index of a sorted list is an order
statistic: at most `len/2` elements are strictly below it and more than
`len/2` are at or below it. -/
theorem sorted_half_index_orderstat (g : List ℤ) (hg : 1 ≤ g.length) :
    ∃ m, (List.insertionSort (· ≤ ·) g).getD (g.length / 2) 0 = m ∧ m ∈ g ∧
      g.countP (fun x => decide (x < m)) ≤ g.length / 2 ∧
      g.length / 2 < g.countP fun x => decide (x ≤ m) := by
  set s := List.insertionSort (· ≤ ·) g with hs
  have hperm : s.Perm g := List.perm_insertionSort _ g
  have hsorted : List.Sorted (· ≤ ·) s := List.sorted_insertionSort _ g
  have hslen : s.length = g.length := List.length_insertionSort _ g
  set i := g.length / 2 with hi
  have hilt : i < g.length := Nat.div_lt_self (by omega) one_lt_two
  have hislt : i < s.length := by omega
  have hms : s.getD i 0 = s[i] := List.getD_eq_getElem s 0 hislt
  have hdrop : s.drop i = s[i] :: s.drop (i + 1) := List.drop_eq_getElem_cons hislt
  have hmemdrop : s[i] ∈ s.drop i := by rw [hdrop]; exact List.mem_cons_self _ _
  obtain ⟨m, hmeq⟩ : ∃ m, s[i] = m := ⟨s[i], rfl⟩
  rw [hmeq] at hms hdrop hmemdrop
  refine ⟨m, hms, hperm.mem_iff.mp (hmeq ▸ List.getElem_mem hislt), ?_, ?_⟩
  · rw [← hperm.countP_eq, ← List.take_append_drop i s, List.countP_append]
    have hdropzero : (s.drop i).countP (fun x => decide (x < m)) = 0 := by
      rw [List.countP_eq_zero]
      intro a ha
      have hpair : List.Pairwise (· ≤ ·) (s.drop i) :=
        List.Pairwise.sublist (List.drop_sublist i s) hsorted
      rw [hdrop] at ha hpair
      rcases List.mem_cons.mp ha with rfl | ha
      · simp
      · have hle := (List.pairwise_cons.mp hpair).1 a ha
        simp only [decide_eq_true_eq, not_lt]
        exact hle
    have htake : (s.take i).countP (fun x => decide (x < m)) ≤ i :=
      le_trans (List.countP_le_length _)
        (by rw [List.length_take]; exact min_le_left _ _)
    omega
  · rw [← hperm.countP_eq, ← List.take_append_drop i s, List.countP_append]
    have hlen : (s.take i).length = i := by
      rw [List.length_take]; exact min_eq_left hislt.le
    have htake : (s.take i).countP (fun x => decide (x ≤ m)) = i := by
      have hall : ∀ a ∈ s.take i, (fun x => decide (x ≤ m)) a = true := by
        intro a ha
        simp only [decide_eq_true_eq]
        exact hsorted.rel_of_mem_take_of_mem_drop ha hmemdrop
      exact (List.countP_eq_length.mpr hall).trans hlen
    have hdroppos : 0 < (s.drop i).countP fun x => decide (x ≤ m) :=
      List.countP_pos.mpr ⟨m, hmemdrop, by simp⟩
    omega

/-- C5 counterexample: for vendor V with transactions on 2024-01-01,
2024-01-11 and 2024-01-31 the sorted gap list is [10, 20]; its lower-middle
element (floor of (length-1)/2) is 10, but the code returns
`sorted(gaps)[len//2] = 20`. -/
theorem c5_median_counterexample :
    vendorGaps ⟨"i1", "u", "V", ⟨1, 1⟩, "2024-01-01"⟩
        [⟨"i1", "u", "V", ⟨1, 1⟩, "2024-01-01"⟩, ⟨"i2", "u", "V", ⟨1, 1⟩, "2024-01-11"⟩,
          ⟨"i3", "u", "V", ⟨1, 1⟩, "2024-01-31"⟩] = some [10, 20] ∧
    (List.insertionSort (fun a b : ℤ => a ≤ b) [10, 20]).getD ((2 - 1) / 2) 0 = 10 ∧
    (get_frequency_features ⟨"i1", "u", "V", ⟨1, 1⟩, "2024-01-01"⟩
        [⟨"i1", "u", "V", ⟨1, 1⟩, "2024-01-01"⟩, ⟨"i2", "u", "V", ⟨1, 1⟩, "2024-01-11"⟩,
          ⟨"i3", "u", "V", ⟨1, 1⟩, "2024-01-31"⟩]).map (List.lookup "median_frequency") =
      some (some (.int 20)) ∧
    (get_frequency_features ⟨"i1", "u", "V", ⟨1, 1⟩, "2024-01-01"⟩
        [⟨"i1", "u", "V", ⟨1, 1⟩, "2024-01-01"⟩, ⟨"i2", "u", "V", ⟨1, 1⟩, "2024-01-11"⟩,
          ⟨"i3", "u", "V", ⟨1, 1⟩, "2024-01-31"⟩]).map (List.lookup "median_frequency") ≠
      some (some (.int 10)) := by
  decide

/-- C5 (amended): with at least 2 vendor transactions the median_frequency
feature is the element at index `len/2` of the sorted gap list — the upper
middle for even-length gap lists, characterized as the order statistic with
at most `len/2` gaps strictly below it and more than `len/2` gaps at or
below it; with fewer than 2 vendor transactions, frequency, median_frequency
and std_frequency (and date_variability) all default to 0.0. -/
theorem c5_frequency_median_amended (t : Transaction) (all : List Transaction) :
    ((all.filter fun u => u.name == t.name).length < 2 →
      get_frequency_features t all =
        some [("frequency", .float (PyNum.ofInt 0)), ("date_variability", .float (PyNum.ofInt 0)),
          ("median_frequency", .float (PyNum.ofInt 0)),
          ("std_frequency", .float (PyNum.ofInt 0))]) ∧
    (∀ d, 2 ≤ (all.filter fun u => u.name == t.name).length →
      get_frequency_features t all = some d →
      ∃ g m, vendorGaps t all = some g ∧
        List.lookup "median_frequency" d = some (.int m) ∧ m ∈ g ∧
        g.countP (fun x => decide (x < m)) ≤ g.length / 2 ∧
        g.length / 2 < g.countP fun x => decide (x ≤ m)) := by
  constructor
  · intro h
    simp [get_frequency_features, h]
  · intro d hlen hd
    rw [get_frequency_features] at hd
    rw [if_neg (by omega)] at hd
    simp only [Option.map_eq_some'] at hd
    obtain ⟨g, hg, rfl⟩ := hd
    have hglen : 1 ≤ g.length := by
      have := vendorGaps_length hg
      omega
    obtain ⟨m, hmdef, hmem, hlow, hhigh⟩ := sorted_half_index_orderstat g hglen
    refine ⟨g, m, hg, ?_, hmem, hlow, hhigh⟩
    simp only [List.lookup, Option.some.injEq, FVal.int.injEq]
    simp only [show ("median_frequency" == "frequency") = false from rfl,
      show ("median_frequency" == "date_variability") = false from rfl,
      show ("median_frequency" == "median_frequency") = true from rfl]
    exact congrArg (fun z => some (FVal.int z)) hmdef

/-- C5 witness: the short-history default on an empty history, and the order
statistic at the [10, 20] gap list (median 20). -/
theorem c5_amended_witness :
    (get_frequency_features ⟨"w", "u", "W", ⟨1, 1⟩, "2024-01-01"⟩ [] =
      some [("frequency", .float (PyNum.ofInt 0)), ("date_variability", .float (PyNum.ofInt 0)),
        ("median_frequency", .float (PyNum.ofInt 0)),
        ("std_frequency", .float (PyNum.ofInt 0))]) ∧
    (∃ (g : List ℤ) (m : ℤ), vendorGaps ⟨"i1", "u", "V", ⟨1, 1⟩, "2024-01-01"⟩
        [⟨"i1", "u", "V", ⟨1, 1⟩, "2024-01-01"⟩, ⟨"i2", "u", "V", ⟨1, 1⟩, "2024-01-11"⟩,
          ⟨"i3", "u", "V", ⟨1, 1⟩, "2024-01-31"⟩] = some g ∧
      List.lookup "median_frequency"
          [("frequency", FVal.float ⟨30, 2⟩), ("date_variability", FVal.int 10),
            ("median_frequency", FVal.int 20), ("std_frequency", FVal.float ⟨160, 32⟩)] =
        some (FVal.int m) ∧ m ∈ g ∧
      g.countP (fun x => decide (x < m)) ≤ g.length / 2 ∧
      g.length / 2 < g.countP fun x => decide (x ≤ m)) := by
  constructor
  · exact (c5_frequency_median_amended _ []).1 (by decide)
  · exact (c5_frequency_median_amended ⟨"i1", "u", "V", ⟨1, 1⟩, "2024-01-01"⟩
      [⟨"i1", "u", "V", ⟨1, 1⟩, "2024-01-01"⟩, ⟨"i2", "u", "V", ⟨1, 1⟩, "2024-01-11"⟩,
        ⟨"i3", "u", "V", ⟨1, 1⟩, "2024-01-31"⟩]).2
      [("frequency", .float ⟨30, 2⟩), ("date_variability", .int 10),
        ("median_frequency", .int 20), ("std_frequency", .float ⟨160, 32⟩)]
      (by decide) (by decide)

/-- C7: three Spotify transactions at 28-day gaps score monthly-consistent 1
and weekly-consistent 0; in general, with at least 3 vendor transactions the
flags fire exactly when the fraction of gaps in [28,31] (respectively [6,8])
days exceeds 0.7, and with fewer than 3 vendor transactions all three
outputs default to 0. -/
theorem c7_temporal_consistency :
    (get_temporal_consistency_features ⟨"s1", "u1", "Spotify", ⟨999, 100⟩, "2024-01-01"⟩
        [⟨"s1", "u1", "Spotify", ⟨999, 100⟩, "2024-01-01"⟩,
          ⟨"s2", "u1", "Spotify", ⟨999, 100⟩, "2024-01-29"⟩,
          ⟨"s3", "u1", "Spotify", ⟨999, 100⟩, "2024-02-26"⟩] =
      some [("temporal_consistency_score", FVal.float ⟨4, 8⟩),
        ("is_monthly_consistent", FVal.int 1), ("is_weekly_consistent", FVal.int 0)]) ∧
    (∀ (t : Transaction) (all : List Transaction),
      (all.filter fun u => u.name == t.name).length < 3 →
      get_temporal_consistency_features t all =
        some [("temporal_consistency_score", FVal.float (PyNum.ofInt 0)),
          ("is_monthly_consistent", FVal.int 0), ("is_weekly_consistent", FVal.int 0)]) ∧
    (∀ (t : Transaction) (all : List Transaction) (d : Dict) (g : List ℤ),
      3 ≤ (all.filter fun u => u.name == t.name).length →
      get_temporal_consistency_features t all = some d → vendorGaps t all = some g →
      (List.lookup "is_monthly_consistent" d = some (FVal.int 1) ↔
        PyNum.lt ⟨7, 10⟩ (PyNum.div
          (PyNum.ofNat (g.filter fun diff => decide (28 ≤ diff ∧ diff ≤ 31)).length)
          (PyNum.ofNat g.length)) = true) ∧
      (List.lookup "is_weekly_consistent" d = some (FVal.int 1) ↔
        PyNum.lt ⟨7, 10⟩ (PyNum.div
          (PyNum.ofNat (g.filter fun diff => decide (6 ≤ diff ∧ diff ≤ 8)).length)
          (PyNum.ofNat g.length)) = true)) := by
  refine ⟨by decide, ?_, ?_⟩
  · intro t all h
    simp [get_temporal_consistency_features, h]
  · intro t all d g h3 hd hg
    rw [get_temporal_consistency_features] at hd
    rw [if_neg (by omega)] at hd
    simp only [Option.map_eq_some'] at hd
    obtain ⟨g2, hg2, rfl⟩ := hd
    rw [hg] at hg2
    injection hg2 with hgeq
    subst hgeq
    have hlen : 1 ≤ g.length := by
      have := vendorGaps_length hg
      omega
    have hne : (!g.isEmpty) = true := by
      cases g with
      | nil => simp at hlen
      | cons a l => rfl
    constructor
    · by_cases hb : PyNum.lt ⟨7, 10⟩ (PyNum.div
          (PyNum.ofNat (g.filter fun diff => decide (28 ≤ diff ∧ diff ≤ 31)).length)
          (PyNum.ofNat g.length)) = true <;>
        simp [List.lookup, hne, hb]
    · by_cases hb : PyNum.lt ⟨7, 10⟩ (PyNum.div
          (PyNum.ofNat (g.filter fun diff => decide (6 ≤ diff ∧ diff ≤ 8)).length)
          (PyNum.ofNat g.length)) = true <;>
        simp [List.lookup, hne, hb]

/-- C7 witness: the under-3 default on an empty history, and the monthly flag
versus the gap fraction for the Spotify scenario's gap list [28, 28]. -/
theorem c7_witness :
    (get_temporal_consistency_features ⟨"w", "u", "W", ⟨1, 1⟩, "2024-01-01"⟩ [] =
      some [("temporal_consistency_score", FVal.float (PyNum.ofInt 0)),
        ("is_monthly_consistent", FVal.int 0), ("is_weekly_consistent", FVal.int 0)]) ∧
    (List.lookup "is_monthly_consistent"
        [("temporal_consistency_score", FVal.float ⟨4, 8⟩),
          ("is_monthly_consistent", FVal.int 1), ("is_weekly_consistent", FVal.int 0)] =
      some (FVal.int 1) ↔
      PyNum.lt ⟨7, 10⟩ (PyNum.div
        (PyNum.ofNat (([28, 28] : List ℤ).filter fun diff =>
          decide (28 ≤ diff ∧ diff ≤ 31)).length)
        (PyNum.ofNat ([28, 28] : List ℤ).length)) = true) := by
  constructor
  · exact c7_temporal_consistency.2.1 _ [] (by decide)
  · exact (c7_temporal_consistency.2.2 ⟨"s1", "u1", "Spotify", ⟨999, 100⟩, "2024-01-01"⟩
      [⟨"s1", "u1", "Spotify", ⟨999, 100⟩, "2024-01-01"⟩,
        ⟨"s2", "u1", "Spotify", ⟨999, 100⟩, "2024-01-29"⟩,
        ⟨"s3", "u1", "Spotify", ⟨999, 100⟩, "2024-02-26"⟩]
      [("temporal_consistency_score", FVal.float ⟨4, 8⟩),
        ("is_monthly_consistent", FVal.int 1), ("is_weekly_consistent", FVal.int 0)]
      [28, 28] (by decide) (by decide) (by decide)).1

/-- C2 counterexample: both `get_amount_category` and `get_amount_features`
emit the key "amount_category"; at amount 45 the threshold bucket is 2, but
the assembled mapping holds a single "amount_category" entry with the
later-merged `floor(amount/10) = 4`, and no feature of the mapping carries
the value 2 — the threshold bucket is overwritten, not kept under a second
key. -/
theorem c2_amount_category_counterexample :
    get_amount_category ⟨"i", "u", "v", ⟨45, 1⟩, "2024-01-01"⟩ =
      [("amount_category", FVal.int 2)] ∧
    (get_features ⟨"i", "u", "v", ⟨45, 1⟩, "2024-01-01"⟩
        [⟨"i", "u", "v", ⟨45, 1⟩, "2024-01-01"⟩]).map
      (fun d => (List.lookup "amount_category" d, (dkeys d).count "amount_category",
        d.any fun q => decide (q.2 = FVal.int 2))) =
    some (some (FVal.int 4), 1, false) := by
  decide

/-- C2 (amended): whenever `get_features` succeeds, the returned mapping has
keys with no duplicates and its single "amount_category" entry equals the
later-merged `get_amount_features` bucket `int(amount // 10)`; the
threshold-bucket value of `get_amount_category` is overwritten. -/
theorem c2_amount_category_amended (t : Transaction) (all : List Transaction) (d : Dict)
    (h : get_features t all = some d) :
    List.lookup "amount_category" d =
      some (FVal.int (PyNum.floordiv t.amount (PyNum.ofInt 10))) ∧ (dkeys d).Nodup := by
  rw [get_features_def] at h
  simp only [Option.bind_eq_some, Option.some.injEq] at h
  obtain ⟨p, hp, v29, -, v30, -, v31, -, v32, -, v33, -, v34, -, v35, -, v36, -, rfl⟩ := h
  refine ⟨?_, nodup_foldl_dictMerge _ [] (by simp [dkeys])⟩
  rw [featuresPre_def] at hp
  simp only [Option.bind_eq_some, Option.some.injEq] at hp
  obtain ⟨d2, -, d5, -, d11, -, d13, -, d16, -, d19, h19, x25, -, x26, -, x27, -, x28, -, rfl⟩ := hp
  unfold assemble
  dsimp only
  have hside : ∀ e ∈ ([get_vendor_features t all, d19, get_user_recurrence_rate t all,
      [("is_recurring", FVal.bool (is_valid_recurring_transaction t))],
      get_user_specific_features t all,
      [("ends_in_99", FVal.bool (get_ends_in_99 t))],
      [("amount", FVal.float t.amount)],
      [("same_day_exact", FVal.int (x25 : ℤ))],
      [("pct_transactions_same_day", FVal.float x26)],
      [("same_day_off_by_1", FVal.int (x27 : ℤ))],
      [("same_day_off_by_2", FVal.int (x28 : ℤ))],
      [("14_days_apart_exact", FVal.int (v29 : ℤ))],
      [("pct_14_days_apart_exact", FVal.float v30)],
      [("14_days_apart_off_by_1", FVal.int (v31 : ℤ))],
      [("pct_14_days_apart_off_by_1", FVal.float v32)],
      [("7_days_apart_exact", FVal.int (v33 : ℤ))],
      [("pct_7_days_apart_exact", FVal.float v34)],
      [("7_days_apart_off_by_1", FVal.int (v35 : ℤ))],
      [("pct_7_days_apart_off_by_1", FVal.float v36)],
      [("is_insurance", FVal.bool (get_is_insurance t))],
      [("is_utility", FVal.bool (get_is_utility t))],
      [("is_phone", FVal.bool (get_is_phone t))],
      [("is_always_recurring", FVal.bool (get_is_always_recurring t))]] : List Dict),
      "amount_category" ∉ dkeys e := by
    intro e he
    simp only [List.mem_cons, List.not_mem_nil, or_false] at he
    rcases he with rfl | rfl | rfl | rfl | rfl | rfl | rfl | rfl | rfl | rfl | rfl | rfl | rfl |
      rfl | rfl | rfl | rfl | rfl | rfl | rfl | rfl | rfl | rfl <;>
      first
        | (rw [dkeys_vendor_features]; decide)
        | (rw [dkeys_time_features h19]; decide)
        | (rw [dkeys_user_recurrence_rate]; decide)
        | (rw [dkeys_user_specific]; decide)
        | simp [dkeys]
  rw [List.foldl_cons, List.foldl_cons, List.foldl_cons, List.foldl_cons, List.foldl_cons,
    List.foldl_cons, List.foldl_cons, List.foldl_cons, List.foldl_cons, List.foldl_cons,
    List.foldl_cons, List.foldl_cons, List.foldl_cons, List.foldl_cons, List.foldl_cons,
    List.foldl_cons, List.foldl_cons]
  rw [lookup_foldl_merge_of_not_mem _ _ _ hside]
  rw [show get_amount_features t =
    [("is_amount_rounded",
        FVal.int (if PyNum.eq t.amount (PyNum.ofInt (PyNum.round t.amount)) then 1 else 0)),
      ("amount_category", FVal.int (PyNum.floordiv t.amount (PyNum.ofInt 10)))] from rfl]
  rw [show ∀ (X : Dict) (q1 q2 : String × FVal),
      dictMerge X [q1, q2] = dictInsert (dictInsert X q1) q2 from fun X q1 q2 => rfl]
  rw [lookup_dictInsert]
  simp

/-- C2 witness: at amount 45 with the singleton history the surviving
amount_category value is 4 = 45 // 10. -/
theorem c2_amended_witness :
    (get_features ⟨"i", "u", "v", ⟨45, 1⟩, "2024-01-01"⟩
        [⟨"i", "u", "v", ⟨45, 1⟩, "2024-01-01"⟩]).map
      (List.lookup "amount_category") = some (some (FVal.int 4)) := by
  have hs : (get_features ⟨"i", "u", "v", ⟨45, 1⟩, "2024-01-01"⟩
      [⟨"i", "u", "v", ⟨45, 1⟩, "2024-01-01"⟩]).isSome = true := by decide
  rcases ho : get_features ⟨"i", "u", "v", ⟨45, 1⟩, "2024-01-01"⟩
      [⟨"i", "u", "v", ⟨45, 1⟩, "2024-01-01"⟩] with - | d
  · rw [ho] at hs
    simp at hs
  · have h2 := (c2_amount_category_amended _ _ d ho).1
    show some (List.lookup "amount_category" d) = some (some (FVal.int 4))
    rw [h2]
    decide

end RecurScan
